import Mathlib

/-!
# MosalamaAgent: engine lifecycle, artifact store and GPU sampling

A shallow embedding of the Go packages `engine`, `model` and `monitoring` of
`bodaay/MosalamaAgent`, followed by theorems about them.

* Go values of type `error` are modelled by their message (`Error := String`);
  a Go result `(v, err)` is a pair whose second component is `Option Error`.
* Go maps are association lists with pairwise distinct keys (`AList`).
* The container runtime (Docker Engine API), the GPU library (NVML), the HTTP
  client and the file system are external to the repository.  They are modelled
  as explicit state: every call takes the state of the collaborator and returns
  the result together with the new state.
-/

namespace MosalamaAgent

/-- Message carried by a Go `error` value. -/
abbrev Error : Type := String

/-- Go `map[string]V`: finitely many entries, keys pairwise distinct. -/
abbrev GoMap (V : Type) : Type := AList (fun _ : String => V)

/-! ## Package `engine`: data passed to the container runtime -/

/-- Type `nat.PortBinding`. -/
structure PortBinding where
  HostIP : String
  HostPort : String
deriving DecidableEq, Repr

/-- Type `nat.PortMap`, a `map[nat.Port][]nat.PortBinding` (`nat.Port` is a string). -/
abbrev PortMap : Type := GoMap (List PortBinding)

/-- Type `engine.ContainerResources` (both fields are `int64`, never computed with). -/
structure ContainerResources where
  CPUQuota : Int
  Memory : Int
deriving DecidableEq, Repr

/-- Fields of `container.Resources` set by the manager. -/
structure Resources where
  CPUQuota : Int
  Memory : Int
deriving DecidableEq, Repr

/-- Fields of `container.Config` set by the manager. -/
structure Config where
  Image : String
  Cmd : List String
deriving DecidableEq, Repr

/-- Type `container.RestartPolicy`. -/
structure RestartPolicy where
  Name : String
deriving DecidableEq, Repr

/-- Fields of `container.HostConfig` set by the manager. -/
structure HostConfig where
  PortBindings : PortMap
  Resources : Resources
  RestartPolicy : RestartPolicy
  Binds : List String
deriving DecidableEq

/-- Helper function to convert port mappings (`engine.go`, `natPortBindings`):
starting from the empty `nat.PortMap`, every entry `containerPort ↦ hostPort`
of `ports` stores the one-element list holding the binding to `hostPort` under the key
`nat.Port(containerPort)`. -/
def natPortBindings (ports : GoMap String) : PortMap :=
  ports.foldl
    (fun portMap containerPort hostPort =>
      portMap.insert containerPort [{ HostIP := "", HostPort := hostPort }])
    ∅

/-! ## The container runtime -/

/-- Lifecycle state the runtime reports for a container. -/
inductive ContainerState where
  | created
  | running
  | restarting
  | exited
deriving DecidableEq, Repr

/-- How a pull goes on once the runtime has accepted the request.  The client
learns of it through the progress stream only.

* `completed`: the image is stored before the next request is handled;
* `failed err`: the pull breaks off and the stream reports `err`; no image is stored;
* `streaming`: the pull is still under way when the next request is handled,
  and is ended when the stream is closed. -/
inductive PullProgress where
  | completed
  | failed (err : Error)
  | streaming
deriving DecidableEq, Repr

/-- A container held by the runtime: the fields of `types.Container` that the
manager or its test read (`ID`, `Names`, `Image`, `State`), and the
configuration it was created with. -/
structure Container where
  ID : String
  Names : List String
  Image : String
  Cmd : List String
  State : ContainerState
  HostConfig : HostConfig
deriving DecidableEq

/-- The requests of the Docker Engine API that a client can issue against the
container set.  `containerRemove` is part of the API; the manager has no code
path that issues it. -/
inductive Call where
  | imagePull (ref : String)
  | containerCreate (name : String)
  | containerStart (ref : String)
  | containerStop (ref : String) (timeoutSeconds : Nat)
  | containerList
  | containerRemove (ref : String)
deriving DecidableEq, Repr

/-- State of the container runtime as seen through the client.

* `containers`: every container the runtime holds, in creation order;
* `images`: image references present locally;
* `faults`: the failures the runtime raises on its own account (daemon
  unreachable, registry error, start failure of the workload, ...): `faults n`
  is the error, if any, with which the `n`-th request received is answered;
* `pulls`: how the pull goes on when the `n`-th request received is a pull
  that the runtime accepts;
* `endsAtOnce`: the images whose workload ends as soon as it is started (such
  as `hello-world`): by the time the request after the start is handled, such
  a container is no longer running;
* `log`: the requests received so far, oldest first.

Apart from a workload that ends at once, containers change state through
requests only. -/
structure Daemon where
  containers : List Container
  images : List String
  faults : Nat → Option Error
  pulls : Nat → PullProgress
  endsAtOnce : String → Bool
  log : List Call

/-- The failure, if any, with which the runtime answers the next request. -/
def Daemon.fault (d : Daemon) : Option Error :=
  d.faults d.log.length

/-- How the pull goes on if the next request is a pull that the runtime accepts. -/
def Daemon.pullProgress (d : Daemon) : PullProgress :=
  d.pulls d.log.length

/-- The state of the container `c` once the runtime has started it: running,
unless its workload ends at once; then the restart policies `always` and
`unless-stopped` keep bringing it back (restarting), and any other policy
leaves it exited. -/
def Daemon.started (d : Daemon) (c : Container) : ContainerState :=
  if d.endsAtOnce c.Image then
    if c.HostConfig.RestartPolicy.Name = "always"
        ∨ c.HostConfig.RestartPolicy.Name = "unless-stopped" then .restarting
    else .exited
  else .running

/-- The runtime takes note of a request. -/
def Daemon.record (d : Daemon) (c : Call) : Daemon :=
  { d with log := d.log ++ [c] }

/-- The name as the runtime reports it in `Names`: with a leading slash
(`engine_test.go` looks for `"/"+containerName`). -/
def runtimeName (containerName : String) : String :=
  "/" ++ containerName

/-- The listing entry `c` carries the container name `containerName`. -/
def hasName (c : Container) (containerName : String) : Prop :=
  runtimeName containerName ∈ c.Names

instance (c : Container) (containerName : String) : Decidable (hasName c containerName) := by
  unfold hasName; infer_instance

/-- An identifier no container of `cs` carries: longer than each of theirs. -/
def freshID (cs : List Container) : String :=
  String.mk (List.replicate (cs.foldr (fun c n => max c.ID.length n) 0 + 1) 'a')

/-- The container a reference denotes: the one with that identifier, else the
first one with that name. -/
def resolve (cs : List Container) (ref : String) : Option Container :=
  match cs.find? (fun c => decide (c.ID = ref)) with
  | some c => some c
  | none => cs.find? (fun c => decide (hasName c ref))

/-- Give the container(s) with identifier `id` the state `f` computes for them. -/
def updateState (cs : List Container) (id : String) (f : Container → ContainerState) :
    List Container :=
  cs.map (fun c => if c.ID = id then { c with State := f c } else c)

/-- Request `ImagePull`: it returns an error when the runtime refuses the
request, and otherwise returns at once with a progress stream while the pull
goes on as `pullProgress` tells; only a pull that completes stores the image.
The manager never reads the stream and closes it when `StartEngine` returns, so
the stream is not part of the result here: a pull that fails after the request
was accepted, or that is still streaming, looks to the manager like one that
completed. -/
def ImagePull (d : Daemon) (ref : String) : Option Error × Daemon :=
  match d.fault with
  | some err => (some err, d.record (.imagePull ref))
  | none =>
    match d.pullProgress with
    | .completed => (none, { d.record (.imagePull ref) with images := ref :: d.images })
    | .failed _ => (none, d.record (.imagePull ref))
    | .streaming => (none, d.record (.imagePull ref))

/-- Request `ContainerCreate`: fails when the image is not present or when the
requested name is in use; an empty name lets the runtime choose one.  On
success a container in state `created` is added and its identifier returned. -/
def ContainerCreate (d : Daemon) (config : Config) (hostConfig : HostConfig)
    (containerName : String) : Except Error String × Daemon :=
  let d1 := d.record (.containerCreate containerName)
  match d.fault with
  | some err => (.error err, d1)
  | none =>
    if config.Image ∉ d.images then
      (.error ("No such image: " ++ config.Image), d1)
    else if containerName ≠ "" ∧ ∃ c ∈ d.containers, hasName c containerName then
      (.error ("Conflict. The container name " ++ runtimeName containerName
        ++ " is already in use"), d1)
    else
      let id := freshID d.containers
      let name := if containerName = "" then "auto_" ++ id else containerName
      (.ok id,
        { d1 with
          containers := d.containers ++
            [{ ID := id, Names := [runtimeName name], Image := config.Image,
               Cmd := config.Cmd, State := .created, HostConfig := hostConfig }] })

/-- Request `ContainerStart`: fails when the reference denotes no container;
starting a running container is not an error.  The container is then in the
state `Daemon.started` tells. -/
def ContainerStart (d : Daemon) (ref : String) : Option Error × Daemon :=
  let d1 := d.record (.containerStart ref)
  match d.fault with
  | some err => (some err, d1)
  | none =>
    match resolve d.containers ref with
    | none => (some ("No such container: " ++ ref), d1)
    | some c => (none, { d1 with containers := updateState d.containers c.ID d.started })

/-- Request `ContainerStop`: fails when the reference denotes no container;
a running or restarting container becomes `exited`, stopping any other one
changes nothing and is not an error. -/
def ContainerStop (d : Daemon) (ref : String) (timeoutSeconds : Nat) : Option Error × Daemon :=
  let d1 := d.record (.containerStop ref timeoutSeconds)
  match d.fault with
  | some err => (some err, d1)
  | none =>
    match resolve d.containers ref with
    | none => (some ("No such container: " ++ ref), d1)
    | some c =>
      (none, { d1 with
        containers := updateState d.containers c.ID
          (fun c => if c.State = .running ∨ c.State = .restarting then .exited else c.State) })

/-- The runtime counts `c` among the running containers: a container that is
restarting is one of them. -/
def listed (c : Container) : Bool :=
  decide (c.State = .running ∨ c.State = .restarting)

/-- Request `ContainerList` with the zero value of `types.ContainerListOptions`
(`All` is false): the running containers. -/
def ContainerList (d : Daemon) : (List Container × Option Error) × Daemon :=
  let d1 := d.record .containerList
  match d.fault with
  | some err => (([], some err), d1)
  | none => ((d.containers.filter listed, none), d1)

/-! ## Package `engine`: the manager -/

/-- The `containerConfig` that `StartEngine` builds. -/
def containerConfig (imageName : String) (cmd : List String) : Config :=
  { Image := imageName, Cmd := cmd }

/-- The `hostConfig` that `StartEngine` builds (with its `resourcesConfig`). -/
def hostConfig (ports : GoMap String) (resources : ContainerResources) : HostConfig :=
  { PortBindings := natPortBindings ports
    Resources := { CPUQuota := resources.CPUQuota, Memory := resources.Memory }
    RestartPolicy := { Name := "unless-stopped" }
    Binds := ["/var/mosalamaagent/models:/models"] }

/-- Method `EngineManager.StartEngine`: pull, configure, create, start; every
error is returned at once.  (The log line on success is not modelled.) -/
def StartEngine (d : Daemon) (imageName containerName : String) (cmd : List String)
    (ports : GoMap String) (resources : ContainerResources) : Option Error × Daemon :=
  -- Pull the image
  match ImagePull d imageName with
  | (some err, d1) => (some err, d1)
  | (none, d1) =>
    match ContainerCreate d1 (containerConfig imageName cmd) (hostConfig ports resources)
        containerName with
    | (.error err, d2) => (some err, d2)
    | (.ok respID, d2) =>
      -- Start the container
      match ContainerStart d2 respID with
      | (some err, d3) => (some err, d3)
      | (none, d3) => (none, d3)

/-- Method `EngineManager.StopEngine`: one stop request with a timeout of ten
seconds; its error, if any, is returned. -/
def StopEngine (d : Daemon) (containerName : String) : Option Error × Daemon :=
  match ContainerStop d containerName 10 with
  | (some err, d1) => (some err, d1)
  | (none, d1) => (none, d1)

/-- Method `EngineManager.ListEngines`: the runtime's listing, or `nil` and the error. -/
def ListEngines (d : Daemon) : (List Container × Option Error) × Daemon :=
  match ContainerList d with
  | ((_, some err), d1) => (([], some err), d1)
  | ((containers, none), d1) => ((containers, none), d1)

/-- An engine request the specification calls valid: non-empty image reference,
non-empty container name, non-negative limits. -/
def ValidEngineSpec (imageName containerName : String) (resources : ContainerResources) : Prop :=
  imageName ≠ "" ∧ containerName ≠ "" ∧ 0 ≤ resources.CPUQuota ∧ 0 ≤ resources.Memory

/-- A runtime holding nothing, answering every request; pulls complete at once
and workloads keep running. -/
def emptyDaemon : Daemon :=
  { containers := [], images := [], faults := fun _ => none, pulls := fun _ => .completed,
    endsAtOnce := fun _ => false, log := [] }

/-- A runtime holding nothing that fails the request number `n` (counted from 0) with `err`. -/
def faultyDaemon (n : Nat) (err : Error) : Daemon :=
  { emptyDaemon with faults := fun k => if k = n then some err else none }

/-- A runtime that holds the image `img:latest` locally and no container, and
on which every pull is accepted and then breaks off. -/
def brokenPullDaemon : Daemon :=
  { emptyDaemon with
    images := ["img:latest"], pulls := fun _ => .failed "connection reset by peer" }

/-- A runtime that holds the image `img:latest` locally and no container, and
on which every pull is still streaming when the next request arrives. -/
def slowPullDaemon : Daemon :=
  { emptyDaemon with images := ["img:latest"], pulls := fun _ => .streaming }

/-- A runtime that holds the image of the test (`engine_test.go`),
`hello-world:latest`, whose workload prints a greeting and ends at once. -/
def helloDaemon : Daemon :=
  { emptyDaemon with
    images := ["hello-world:latest"], pulls := fun _ => .streaming,
    endsAtOnce := fun image => decide (image = "hello-world:latest") }

/-- The limits of the test (`engine_test.go`): none. -/
def testResources : ContainerResources :=
  { CPUQuota := 0, Memory := 0 }

/-- The port map of the driver (`main.go`): container port `8000/tcp` to host port `8000`. -/
def mainPorts : GoMap String :=
  AList.insert "8000/tcp" "8000" ∅

/-- The limits of the driver (`main.go`): two CPUs, 4 GiB. -/
def mainResources : ContainerResources :=
  { CPUQuota := 200000, Memory := 4 * 1024 * 1024 * 1024 }

instance (imageName containerName : String) (resources : ContainerResources) :
    Decidable (ValidEngineSpec imageName containerName resources) := by
  unfold ValidEngineSpec; infer_instance

/-- The runtime after the driver's engine was started once on an empty runtime. -/
def startedOnce : Daemon :=
  (StartEngine emptyDaemon "img:latest" "c1" [] mainPorts mainResources).2

/-! ## Package `monitoring`: GPU sampling -/

/-- A device handle of the GPU library. -/
structure Device where
  handle : Nat
deriving DecidableEq, Repr

/-- Outcome of every call of the GPU library (`gonvml`) that `GetGPUUsage`
makes: initialisation, device count, handle lookup by index, and the
utilisation query on a handle (GPU and memory utilisation). -/
structure NVML where
  Initialize : Option Error
  DeviceCount : Except Error Nat
  DeviceHandleByIndex : Nat → Except Error Device
  UtilizationRates : Device → Except Error (Nat × Nat)

/-- Body of the loop of `GetGPUUsage` for device index `i`: handle lookup, then
utilisation query, stopping at the first error; the GPU utilisation read. -/
def sampleDevice (nv : NVML) (i : Nat) : Except Error Nat :=
  match nv.DeviceHandleByIndex i with
  | .error err => .error err
  | .ok device =>
    match nv.UtilizationRates device with
    | .error err => .error err
    | .ok (gpuUtil, _) => .ok gpuUtil

/-- The loop `for i := uint(0); i < deviceCount; i++` of `GetGPUUsage`, with
`remaining = deviceCount - i` iterations to go: an error returns `nil` and the
error at once, otherwise the utilisation is appended to `gpuUsages`. -/
def gpuUsageLoop (nv : NVML) : Nat → Nat → List Nat → List Nat × Option Error
  | 0, _, gpuUsages => (gpuUsages, none)
  | remaining + 1, i, gpuUsages =>
    match sampleDevice nv i with
    | .error err => ([], some err)
    | .ok gpuUtil => gpuUsageLoop nv remaining (i + 1) (gpuUsages ++ [gpuUtil])

/-- Method `ResourceMonitor.GetGPUUsage`.  The percentages are kept as the
integers read from the library (Go converts each of them to `float64`); the
deferred shutdown of the library is not modelled. -/
def GetGPUUsage (nv : NVML) : List Nat × Option Error :=
  match nv.Initialize with
  | some err => ([], some err)
  | none =>
    match nv.DeviceCount with
    | .error err => ([], some err)
    | .ok deviceCount => gpuUsageLoop nv deviceCount 0 []

/-- A host without a usable GPU stack: initialisation of the library fails. -/
def noGPU : NVML :=
  { Initialize := some "could not load NVML library"
    DeviceCount := .error "nvml: uninitialized"
    DeviceHandleByIndex := fun _ => .error "nvml: uninitialized"
    UtilizationRates := fun _ => .error "nvml: uninitialized" }

/-- A host with two GPUs, at 35 and 80 percent. -/
def twoGPUs : NVML :=
  { Initialize := none
    DeviceCount := .ok 2
    DeviceHandleByIndex := fun i => .ok ⟨i⟩
    UtilizationRates := fun dev => .ok (if dev.handle = 0 then 35 else 80, 10) }

/-- A host with two GPUs whose second utilisation query fails. -/
def secondGPUFails : NVML :=
  { Initialize := none
    DeviceCount := .ok 2
    DeviceHandleByIndex := fun i => .ok ⟨i⟩
    UtilizationRates := fun dev =>
      if dev.handle = 0 then .ok (35, 10) else .error "nvml: GPU is lost" }

/-! ## The file system and the HTTP client -/

/-- A location in the file system: the names that lead to it from the working
directory of the process, none of them empty or `.`.  Elements `..` at the
front lead above the working directory, and a first element `/` marks a
location written from the root of the file system instead. -/
abbrev Path : Type := List String

/-- What a path holds: a regular file with its bytes, or a directory. -/
inductive Node where
  | file (data : List Nat)
  | dir
deriving DecidableEq, Repr

/-- State of the file system: the node at every path in use, each path once.
The working directory (the empty path) and the root of the file system are
always directories and have no entry.  There are no symbolic links. -/
abbrev FS : Type := AList (fun _ : Path => Node)

/-- The elements of a path string between its separators, left to right;
`cur` holds (reversed) the characters of the element being read. -/
def splitSlash : List Char → List Char → List String
  | [], cur => [String.mk cur.reverse]
  | c :: cs, cur =>
    if c = '/' then String.mk cur.reverse :: splitSlash cs []
    else splitSlash cs (c :: cur)

/-- The elements of a path string. -/
def elements (s : String) : List String :=
  splitSlash s.toList []

/-- Walk one element on from `p`, as `filepath.Clean` does: an empty element
and `.` stay; `..` goes up, except that it stays at the root of the file system
and is kept where a relative path has nothing left to go up from; a name goes
down. -/
def step (p : Path) (e : String) : Path :=
  if e = "" ∨ e = "." then p
  else if e = ".." then
    match p.getLast? with
    | none => [".."]
    | some last =>
      if last = ".." then p ++ [".."]
      else if last = "/" then p
      else p.dropLast
  else p ++ [e]

/-- Where a path string starts from: the root of the file system, written as
the first element `/`, when the string begins with a separator, and the working
directory of the process, the empty path, otherwise. -/
def origin (s : String) : Path :=
  if s.toList.head? = some '/' then ["/"] else []

/-- The location a path string denotes. -/
def pathOf (s : String) : Path :=
  (elements s).foldl step (origin s)

/-- The location denoted by `filepath.Join(dir, name)`: empty strings are
ignored, the others are joined by a separator and cleaned. -/
def filepathJoin (dir name : String) : Path :=
  (elements dir ++ elements name).foldl step (origin (if dir = "" then name else dir))

/-- The path `p` holds a directory. -/
def isDir (fs : FS) (p : Path) : Prop :=
  p = [] ∨ p = ["/"] ∨ fs.lookup p = some .dir

instance (fs : FS) (p : Path) : Decidable (isDir fs p) := by
  unfold isDir; infer_instance

/-- The name under which `q` is an entry of the directory `p`, if it is one. -/
def childName (p q : Path) : Option String :=
  if q.take p.length = p then
    match q.drop p.length with
    | [name] => some name
    | _ => none
  else none

/-- The order of file names: byte-wise, as Go compares strings. -/
def nameLE (a b : String) : Prop :=
  a.toList ≤ b.toList

instance : DecidableRel nameLE := fun a b => by
  unfold nameLE; infer_instance

instance : IsTotal String nameLE :=
  ⟨fun a b => le_total a.toList b.toList⟩

instance : IsTrans String nameLE :=
  ⟨fun _ _ _ hab hbc => le_trans hab hbc⟩

instance : IsAntisymm String nameLE :=
  ⟨fun _ _ hab hba => String.ext (le_antisymm hab hba)⟩

/-- Type `os.DirEntry`: the methods `Name()` and `IsDir()`. -/
structure DirEntry where
  Name : String
  IsDir : Bool
deriving DecidableEq, Repr

/-- Function `os.Remove`: removes the named file or empty directory. -/
def osRemove (fs : FS) (p : Path) : Option Error × FS :=
  if p = [] ∨ p = ["/"] then (some "device or resource busy", fs)
  else
    match fs.lookup p with
    | none => (some "no such file or directory", fs)
    | some (.file _) => (none, fs.erase p)
    | some .dir =>
      if fs.keys.any (fun q => (childName p q).isSome) then (some "directory not empty", fs)
      else (none, fs.erase p)

/-- Function `os.ReadDir`: the entries of the named directory, sorted by file name. -/
def osReadDir (fs : FS) (p : Path) : List DirEntry × Option Error :=
  if isDir fs p then
    ((List.insertionSort nameLE (fs.keys.filterMap (childName p))).map
      (fun name => { Name := name, IsDir := decide (fs.lookup (p ++ [name]) = some .dir) }),
     none)
  else ([], some "no such file or directory")

/-- Function `os.Create`: creates the named file, or truncates it if it exists;
the directory it lies in must exist. -/
def osCreate (fs : FS) (p : Path) : Option Error × FS :=
  if p = [] ∨ p = ["/"] then (some "is a directory", fs)
  else if ¬ isDir fs p.dropLast then (some "no such file or directory", fs)
  else if fs.lookup p = some .dir then (some "is a directory", fs)
  else (none, fs.insert p (.file []))

/-- The bytes of the file at `p` (none if `p` holds no file). -/
def fileData (fs : FS) (p : Path) : List Nat :=
  match fs.lookup p with
  | some (.file data) => data
  | _ => []

/-- A response body as a stream: the bytes that can be read from it, and the
error that ends it when it does not end with end-of-file. -/
structure Body where
  delivered : List Nat
  failure : Option Error
deriving DecidableEq, Repr

/-- Fields of `http.Response` used by the store. -/
structure Response where
  StatusCode : Nat
  Body : Body
deriving DecidableEq, Repr

/-- What `http.Get` yields for each URL: a response, or an error. -/
abbrev Net : Type := String → Except Error Response

/-- Function `io.Copy(out, resp.Body)` with `out` the file open at `p`: every
byte read from the body is written to the file; the read error, if any, is
returned. -/
def ioCopy (fs : FS) (p : Path) (body : Body) : Option Error × FS :=
  (body.failure, fs.insert p (.file (fileData fs p ++ body.delivered)))

/-! ## Package `model`: the artifact store -/

/-- Type `model.ModelManager`. -/
structure ModelManager where
  StorageDir : String
deriving DecidableEq, Repr

/-- Function `NewModelManager`. -/
def NewModelManager (storageDir : String) : ModelManager :=
  { StorageDir := storageDir }

/-- Method `ModelManager.DownloadModel`: the error, if any, and the file system
left behind.  (The line printed on success is not modelled.) -/
def ModelManager.DownloadModel (m : ModelManager) (net : Net) (fs : FS) (url modelName : String) :
    Option Error × FS :=
  match net url with
  | .error err => (some err, fs)
  | .ok resp =>
    if resp.StatusCode ≠ 200 then
      (some ("failed to download model, status code: " ++ toString resp.StatusCode), fs)
    else
      let modelPath := filepathJoin m.StorageDir modelName
      match osCreate fs modelPath with
      | (some err, fs1) => (some err, fs1)
      | (none, fs1) =>
        -- Optionally, add support for progress reporting and resuming
        match ioCopy fs1 modelPath resp.Body with
        | (some err, fs2) => (some err, fs2)
        | (none, fs2) => (none, fs2)

/-- Method `ModelManager.ListModels`: the names of the entries of the storage
directory that are not directories, in the order `os.ReadDir` gives them.  (An
empty `StorageDir` is read as the working directory, like `.`.) -/
def ModelManager.ListModels (m : ModelManager) (fs : FS) : List String × Option Error :=
  match osReadDir fs (pathOf m.StorageDir) with
  | (_, some err) => ([], some err)
  | (files, none) =>
    (files.foldl (fun models file => if !file.IsDir then models ++ [file.Name] else models) [],
     none)

/-- Method `ModelManager.DeleteModel`: the error, if any, and the file system
left behind.  (The line printed on success is not modelled.) -/
def ModelManager.DeleteModel (m : ModelManager) (fs : FS) (modelName : String) :
    Option Error × FS :=
  let modelPath := filepathJoin m.StorageDir modelName
  match osRemove fs modelPath with
  | (some err, fs1) => (some err, fs1)
  | (none, fs1) => (none, fs1)

/-- An artifact name that is a single path element: not empty, not `.` or
`..`, and without a path separator. -/
def PlainName (name : String) : Prop :=
  name ≠ "" ∧ name ≠ "." ∧ name ≠ ".." ∧ '/' ∉ name.toList

instance (name : String) : Decidable (PlainName name) := by
  unfold PlainName; infer_instance

/-- The manager of the test (`model_test.go`). -/
def testManager : ModelManager :=
  NewModelManager "./test_models"

/-- The file system holding the (empty) storage directory of the test. -/
def emptyStore : FS :=
  AList.insert ["test_models"] Node.dir ∅

/-- The storage directory of the test holding the two models `a.bin` and
`b.bin` and a subdirectory `org` with the file `m.bin` in it. -/
def sampleStore : FS :=
  AList.insert ["test_models", "b.bin"] (Node.file [1, 2, 3])
    (AList.insert ["test_models", "org", "m.bin"] (Node.file [4, 5])
      (AList.insert ["test_models", "org"] Node.dir
        (AList.insert ["test_models", "a.bin"] (Node.file [6, 7, 8, 9]) emptyStore)))

/-- A network on which every URL answers `200` with two bytes and then breaks
the connection. -/
def brokenNet : Net :=
  fun _ => .ok { StatusCode := 200, Body := { delivered := [77, 79], failure := some "unexpected EOF" } }

/-- A network on which every URL answers `404` with an empty body. -/
def notFoundNet : Net :=
  fun _ => .ok { StatusCode := 404, Body := { delivered := [], failure := none } }

/-! ## Facts about the runtime requests -/

theorem ImagePull_containers (d : Daemon) (ref : String) :
    (ImagePull d ref).2.containers = d.containers := by
  unfold ImagePull Daemon.record
  cases d.fault <;> cases d.pullProgress <;> rfl

theorem ImagePull_log (d : Daemon) (ref : String) :
    (ImagePull d ref).2.log = d.log ++ [.imagePull ref] := by
  unfold ImagePull Daemon.record
  cases d.fault <;> cases d.pullProgress <;> rfl

theorem ImagePull_endsAtOnce (d : Daemon) (ref : String) :
    (ImagePull d ref).2.endsAtOnce = d.endsAtOnce := by
  unfold ImagePull Daemon.record
  cases d.fault <;> cases d.pullProgress <;> rfl

theorem ContainerCreate_endsAtOnce (d : Daemon) (config : Config) (hc : HostConfig)
    (n : String) : (ContainerCreate d config hc n).2.endsAtOnce = d.endsAtOnce := by
  unfold ContainerCreate Daemon.record
  cases d.fault with
  | some e => rfl
  | none => dsimp only; split_ifs <;> rfl

theorem ContainerCreate_log (d : Daemon) (config : Config) (hc : HostConfig) (n : String) :
    (ContainerCreate d config hc n).2.log = d.log ++ [.containerCreate n] := by
  unfold ContainerCreate Daemon.record
  cases d.fault with
  | some e => rfl
  | none => dsimp only; split_ifs <;> rfl

theorem ContainerCreate_error (d : Daemon) (config : Config) (hc : HostConfig) (n : String)
    (err : Error) (h : (ContainerCreate d config hc n).1 = .error err) :
    (ContainerCreate d config hc n).2.containers = d.containers := by
  unfold ContainerCreate Daemon.record at h ⊢
  cases hf : d.fault with
  | some e => rfl
  | none =>
    simp only [hf] at h ⊢
    split_ifs at h ⊢ <;> rfl

theorem ContainerCreate_ok (d : Daemon) (config : Config) (hc : HostConfig) (n : String)
    (id : String) (h : (ContainerCreate d config hc n).1 = .ok id) :
    (ContainerCreate d config hc n).2.containers = d.containers ++
      [{ ID := id, Names := [runtimeName (if n = "" then "auto_" ++ id else n)],
         Image := config.Image, Cmd := config.Cmd, State := .created, HostConfig := hc }] := by
  unfold ContainerCreate Daemon.record at h ⊢
  cases hf : d.fault with
  | some e => simp [hf] at h
  | none =>
    simp only [hf] at h ⊢
    split_ifs at h ⊢ <;> simp_all

theorem ContainerCreate_conflict (d : Daemon) (config : Config) (hc : HostConfig) (n : String)
    (hn : n ≠ "") (hex : ∃ c ∈ d.containers, hasName c n) :
    ∃ err, (ContainerCreate d config hc n).1 = .error err := by
  unfold ContainerCreate Daemon.record
  cases hf : d.fault with
  | some e => exact ⟨e, rfl⟩
  | none =>
    dsimp only
    by_cases h1 : config.Image ∉ d.images
    · rw [if_pos h1]; exact ⟨_, rfl⟩
    · rw [if_neg h1, if_pos ⟨hn, hex⟩]; exact ⟨_, rfl⟩

/-- A successful create appends one container: it carries the identifier
returned, is in state `created`, and has the requested name if one was given. -/
theorem ContainerCreate_ok_new (d : Daemon) (config : Config) (hc : HostConfig) (n : String)
    (id : String) (h : (ContainerCreate d config hc n).1 = .ok id) :
    ∃ x : Container, x.ID = id ∧ x.State = .created ∧ (n ≠ "" → hasName x n) ∧
      (ContainerCreate d config hc n).2.containers = d.containers ++ [x] := by
  refine ⟨_, ?_, ?_, ?_, ContainerCreate_ok d config hc n id h⟩
  · rfl
  · rfl
  · intro hn
    simp [hasName, hn]

/-- The container a successful create appends, with the image and the host
configuration it was given. -/
theorem ContainerCreate_ok_config (d : Daemon) (config : Config) (hc : HostConfig) (n : String)
    (id : String) (h : (ContainerCreate d config hc n).1 = .ok id) :
    ∃ x : Container, x.ID = id ∧ x.Image = config.Image ∧ x.HostConfig = hc ∧
      (n ≠ "" → hasName x n) ∧
      (ContainerCreate d config hc n).2.containers = d.containers ++ [x] := by
  refine ⟨_, ?_, ?_, ?_, ?_, ContainerCreate_ok d config hc n id h⟩
  · rfl
  · rfl
  · rfl
  · intro hn
    simp [hasName, hn]

theorem ContainerStart_log (d : Daemon) (ref : String) :
    (ContainerStart d ref).2.log = d.log ++ [.containerStart ref] := by
  unfold ContainerStart Daemon.record
  cases d.fault with
  | some e => rfl
  | none => dsimp only; cases resolve d.containers ref <;> rfl

theorem ContainerStart_error (d : Daemon) (ref : String) (err : Error)
    (h : (ContainerStart d ref).1 = some err) :
    (ContainerStart d ref).2.containers = d.containers := by
  unfold ContainerStart Daemon.record at h ⊢
  cases hf : d.fault with
  | some e => rfl
  | none =>
    simp only [hf] at h ⊢
    cases hr : resolve d.containers ref with
    | none => rfl
    | some c => simp [hr] at h

theorem ContainerStart_ok (d : Daemon) (ref : String) (h : (ContainerStart d ref).1 = none) :
    ∃ c, resolve d.containers ref = some c ∧
      (ContainerStart d ref).2.containers = updateState d.containers c.ID d.started := by
  unfold ContainerStart Daemon.record at h ⊢
  cases hf : d.fault with
  | some e => simp [hf] at h
  | none =>
    simp only [hf] at h ⊢
    cases hr : resolve d.containers ref with
    | none => simp [hr] at h
    | some c => exact ⟨c, rfl, rfl⟩

theorem ContainerStop_log (d : Daemon) (ref : String) (t : Nat) :
    (ContainerStop d ref t).2.log = d.log ++ [.containerStop ref t] := by
  unfold ContainerStop Daemon.record
  cases d.fault with
  | some e => rfl
  | none => dsimp only; cases resolve d.containers ref <;> rfl

theorem ContainerStop_unresolved (d : Daemon) (ref : String) (t : Nat)
    (h : resolve d.containers ref = none) :
    (ContainerStop d ref t).1 = some ((d.fault).getD ("No such container: " ++ ref)) ∧
      (ContainerStop d ref t).2.containers = d.containers := by
  unfold ContainerStop Daemon.record
  cases hf : d.fault with
  | some e => exact ⟨rfl, rfl⟩
  | none => simp [h]

theorem ContainerStop_ok (d : Daemon) (ref : String) (t : Nat)
    (h : (ContainerStop d ref t).1 = none) :
    d.fault = none ∧ ∃ c, resolve d.containers ref = some c ∧
      (ContainerStop d ref t).2.containers =
        updateState d.containers c.ID
          (fun c => if c.State = .running ∨ c.State = .restarting then .exited else c.State) := by
  unfold ContainerStop Daemon.record at h ⊢
  cases hf : d.fault with
  | some e => simp [hf] at h
  | none =>
    simp only [hf] at h ⊢
    cases hr : resolve d.containers ref with
    | none => simp [hr] at h
    | some c => exact ⟨trivial, c, rfl, rfl⟩

theorem ContainerStop_resolved (d : Daemon) (ref : String) (t : Nat) (c : Container)
    (h : resolve d.containers ref = some c) :
    (ContainerStop d ref t).1 = d.fault := by
  unfold ContainerStop Daemon.record
  cases hf : d.fault with
  | some e => rfl
  | none => simp only [h]

/-- Changing states leaves every identifier and every name in place, so a
reference denotes a container afterwards exactly when it did before. -/
theorem resolve_updateState (cs : List Container) (id ref : String)
    (f : Container → ContainerState) :
    (resolve (updateState cs id f) ref).isSome = (resolve cs ref).isSome := by
  have key : ∀ (p : Container → Bool),
      (∀ c, p (if c.ID = id then { c with State := f c } else c) = p c) →
      ((updateState cs id f).find? p).isSome = (cs.find? p).isSome := by
    intro p hp
    unfold updateState
    rw [List.find?_map]
    have : (p ∘ fun c => if c.ID = id then { c with State := f c } else c) = p := by
      funext c; exact hp c
    rw [this]; cases cs.find? p <;> rfl
  have h1 := key (fun c => decide (c.ID = ref)) (by intro c; split_ifs <;> rfl)
  have h2 := key (fun c => decide (hasName c ref))
    (by intro c; unfold hasName; split_ifs <;> rfl)
  unfold resolve
  cases ha : (updateState cs id f).find? (fun c => decide (c.ID = ref)) <;>
    cases hb : cs.find? (fun c => decide (c.ID = ref)) <;>
    simp_all

/-- A reference equal to the identifier of some container denotes a container
with that identifier. -/
theorem resolve_of_mem_ID (cs : List Container) (x : Container) (hx : x ∈ cs) :
    ∃ c, resolve cs x.ID = some c ∧ c.ID = x.ID := by
  unfold resolve
  cases hf : cs.find? (fun c => decide (c.ID = x.ID)) with
  | some c =>
    refine ⟨c, rfl, ?_⟩
    have := List.find?_some hf
    simpa using this
  | none =>
    have := List.find?_eq_none.mp hf x hx
    simp at this

theorem mem_updateState (cs : List Container) (x : Container) (hx : x ∈ cs)
    (f : Container → ContainerState) :
    { x with State := f x } ∈ updateState cs x.ID f := by
  unfold updateState
  refine List.mem_map.mpr ⟨x, hx, ?_⟩
  simp

theorem ListEngines_eq (d : Daemon) :
    (ListEngines d).1 =
      match d.fault with
      | some err => ([], some err)
      | none => (d.containers.filter listed, none) := by
  unfold ListEngines ContainerList
  cases d.fault <;> rfl

/-! ## Facts about the manager -/

/-- What a successful `StartEngine` went through: pull, create and start all
succeeded, and the final runtime state is the one the start request left. -/
theorem StartEngine_ok_steps (d : Daemon) (imageName containerName : String)
    (cmd : List String) (ports : GoMap String) (resources : ContainerResources)
    (h : (StartEngine d imageName containerName cmd ports resources).1 = none) :
    (ImagePull d imageName).1 = none ∧
    ∃ id, (ContainerCreate (ImagePull d imageName).2 (containerConfig imageName cmd)
        (hostConfig ports resources) containerName).1 = .ok id ∧
      (ContainerStart (ContainerCreate (ImagePull d imageName).2
        (containerConfig imageName cmd) (hostConfig ports resources) containerName).2 id).1
        = none ∧
      (StartEngine d imageName containerName cmd ports resources).2 =
        (ContainerStart (ContainerCreate (ImagePull d imageName).2
          (containerConfig imageName cmd) (hostConfig ports resources) containerName).2 id).2 := by
  unfold StartEngine at h ⊢
  rcases hp : ImagePull d imageName with ⟨_ | e, d1⟩
  · rw [hp] at h
    dsimp only at h ⊢
    rcases hc : ContainerCreate d1 (containerConfig imageName cmd)
        (hostConfig ports resources) containerName with ⟨e | id, d2⟩
    · rw [hc] at h; simp at h
    · rw [hc] at h
      dsimp only at h ⊢
      rcases hs : ContainerStart d2 id with ⟨_ | e, d3⟩
      · exact ⟨rfl, id, rfl, by rw [hs], by rw [hs]⟩
      · rw [hs] at h; simp at h
  · rw [hp] at h; simp at h

/-- After a successful `StartEngine` with a non-empty name the runtime holds a
container with that name: running, or restarting if its workload ends at once. -/
theorem StartEngine_ok_running (d : Daemon) (imageName containerName : String)
    (cmd : List String) (ports : GoMap String) (resources : ContainerResources)
    (hn : containerName ≠ "")
    (h : (StartEngine d imageName containerName cmd ports resources).1 = none) :
    ∃ c ∈ (StartEngine d imageName containerName cmd ports resources).2.containers,
      hasName c containerName ∧
      c.State = if d.endsAtOnce imageName then .restarting else .running := by
  obtain ⟨_, id, hc, hs, hfin⟩ := StartEngine_ok_steps d imageName containerName cmd ports
    resources h
  obtain ⟨x, hxid, himg, hhc, hxname, hcs⟩ := ContainerCreate_ok_config _ _ _ _ _ hc
  obtain ⟨c, hres, hupd⟩ := ContainerStart_ok _ _ hs
  rw [hfin, hupd]
  have hxmem : x ∈ (ContainerCreate (ImagePull d imageName).2 (containerConfig imageName cmd)
      (hostConfig ports resources) containerName).2.containers := by
    rw [hcs]; simp
  obtain ⟨c', hres', hid'⟩ := resolve_of_mem_ID _ x hxmem
  rw [hxid] at hres' hid'
  rw [hres] at hres'
  have hcid : c.ID = x.ID := by
    have : c = c' := Option.some.inj hres'
    rw [this, hid', hxid]
  refine ⟨{ x with State := Daemon.started (ContainerCreate (ImagePull d imageName).2
    (containerConfig imageName cmd) (hostConfig ports resources) containerName).2 x },
    ?_, ?_, ?_⟩
  · rw [hcid]
    exact mem_updateState _ x hxmem _
  · exact hxname hn
  · show Daemon.started _ x = _
    unfold Daemon.started
    rw [ContainerCreate_endsAtOnce, ImagePull_endsAtOnce, himg, hhc]
    simp [containerConfig, hostConfig]

/-- Whatever its outcome, `StopEngine` issues exactly one stop request. -/
theorem StopEngine_eq (d : Daemon) (containerName : String) :
    StopEngine d containerName = ContainerStop d containerName 10 := by
  unfold StopEngine
  rcases ContainerStop d containerName 10 with ⟨_ | e, d1⟩ <;> rfl

/-! ## Engine lifecycle manager: the claims -/

/-- C1 as stated fails for a pull that fails after the runtime accepted the
request: `ImagePull` returns no error, the failure is reported in the progress
stream only, and `StartEngine` never reads that stream.  With the image present
locally it goes on to create and start the container `c1` and returns no
error; without it the error it returns is the one of the container-create
request it has issued. -/
theorem StartEngine_after_broken_pull :
    brokenPullDaemon.fault = none ∧
    brokenPullDaemon.pullProgress = PullProgress.failed "connection reset by peer" ∧
    (StartEngine brokenPullDaemon "img:latest" "c1" [] mainPorts mainResources).1 = none ∧
    (StartEngine brokenPullDaemon "img:latest" "c1" [] mainPorts mainResources).2.log
      = [Call.imagePull "img:latest", Call.containerCreate "c1", Call.containerStart "a"] ∧
    (¬ ∃ c ∈ brokenPullDaemon.containers, hasName c "c1") ∧
    (∃ c ∈ (ListEngines (StartEngine brokenPullDaemon "img:latest" "c1" [] mainPorts
      mainResources).2).1.1, hasName c "c1") ∧
    (StartEngine brokenPullDaemon "other:latest" "c1" [] mainPorts mainResources).1
      = some "No such image: other:latest" ∧
    (StartEngine brokenPullDaemon "other:latest" "c1" [] mainPorts mainResources).2.log
      = [Call.imagePull "other:latest", Call.containerCreate "c1"] := by
  decide

/-- C1 (amended): if the image-pull request itself returns an error,
`StartEngine` returns that error having issued the pull request and nothing
else (no create, no start), the runtime's containers are unchanged, every entry
of a following `ListEngines` is a container that was there before, and so there
is no entry for the requested name unless one was already there. -/
theorem StartEngine_pull_failure (d : Daemon) (imageName containerName : String)
    (cmd : List String) (ports : GoMap String) (resources : ContainerResources) (err : Error)
    (hpull : (ImagePull d imageName).1 = some err) :
    (StartEngine d imageName containerName cmd ports resources).1 = some err ∧
    (StartEngine d imageName containerName cmd ports resources).2.log
      = d.log ++ [Call.imagePull imageName] ∧
    (StartEngine d imageName containerName cmd ports resources).2.containers = d.containers ∧
    (∀ c ∈ (ListEngines (StartEngine d imageName containerName cmd ports resources).2).1.1,
      c ∈ d.containers) ∧
    ((¬ ∃ c ∈ d.containers, hasName c containerName) →
      ¬ ∃ c ∈ (ListEngines (StartEngine d imageName containerName cmd ports resources).2).1.1,
        hasName c containerName) := by
  have hfin : StartEngine d imageName containerName cmd ports resources
      = (some err, (ImagePull d imageName).2) := by
    unfold StartEngine
    rcases hp : ImagePull d imageName with ⟨_ | e, d1⟩
    · rw [hp] at hpull; simp at hpull
    · rw [hp] at hpull
      have : e = err := by simpa using hpull
      rw [this]
  have hlist : ∀ c ∈ (ListEngines (StartEngine d imageName containerName cmd ports
      resources).2).1.1, c ∈ d.containers := by
    intro c hc
    rw [ListEngines_eq, hfin] at hc
    dsimp only at hc
    cases hf : (ImagePull d imageName).2.fault with
    | some e => rw [hf] at hc; simp at hc
    | none =>
      rw [hf] at hc
      dsimp only at hc
      rw [ImagePull_containers] at hc
      exact (List.mem_filter.mp hc).1
  refine ⟨by rw [hfin], by rw [hfin]; exact ImagePull_log d imageName,
    by rw [hfin]; exact ImagePull_containers d imageName, hlist, ?_⟩
  rintro hno ⟨c, hc, hname⟩
  exact hno ⟨c, hlist c hc, hname⟩

/-- C1 (amended), on an empty runtime that refuses the pull request. -/
theorem StartEngine_pull_failure_witness :
    (ImagePull (faultyDaemon 0 "registry unreachable") "img:latest").1
      = some "registry unreachable" ∧
    (StartEngine (faultyDaemon 0 "registry unreachable") "img:latest" "c1" [] mainPorts
      mainResources).1 = some "registry unreachable" :=
  ⟨by decide,
   (StartEngine_pull_failure (faultyDaemon 0 "registry unreachable") "img:latest" "c1" []
      mainPorts mainResources "registry unreachable" (by decide)).1⟩

/-- C2 as stated fails, at the request of the test (`engine_test.go`): the
request is valid, `StartEngine` returns without error and the `ListEngines`
call made next returns without error, with one entry.  Its only name is
`/test_engine_container`, the requested name with a leading slash, and its
state is restarting, because the workload of `hello-world` has ended already:
no entry is in state running, and no entry has the requested name as it was
given.  (And a runtime that refuses the list request itself makes `ListEngines`
return `nil` and that error, after a `StartEngine` without error.) -/
theorem ListEngines_after_hello_world :
    ValidEngineSpec "hello-world:latest" "test_engine_container" testResources ∧
    (StartEngine helloDaemon "hello-world:latest" "test_engine_container" [] ∅
      testResources).1 = none ∧
    (ListEngines (StartEngine helloDaemon "hello-world:latest" "test_engine_container" [] ∅
      testResources).2).1.2 = none ∧
    (ListEngines (StartEngine helloDaemon "hello-world:latest" "test_engine_container" [] ∅
      testResources).2).1.1.map (fun c => (c.Names, c.State))
      = [(["/test_engine_container"], ContainerState.restarting)] ∧
    (¬ ∃ c ∈ (ListEngines (StartEngine helloDaemon "hello-world:latest"
      "test_engine_container" [] ∅ testResources).2).1.1, c.State = .running) ∧
    (¬ ∃ c ∈ (ListEngines (StartEngine helloDaemon "hello-world:latest"
      "test_engine_container" [] ∅ testResources).2).1.1,
      "test_engine_container" ∈ c.Names) ∧
    (StartEngine (faultyDaemon 3 "daemon unreachable") "img:latest" "c1" [] mainPorts
      mainResources).1 = none ∧
    (ListEngines (StartEngine (faultyDaemon 3 "daemon unreachable") "img:latest" "c1" []
      mainPorts mainResources).2).1 = ([], some "daemon unreachable") := by
  decide

/-- C2 (amended): for every valid engine request, when `StartEngine` returns
without error and the `ListEngines` call made next returns without error, its
result contains an entry that carries the requested container name as the
runtime reports it, with a leading slash, and whose state is running, or
restarting when the workload has ended already. -/
theorem StartEngine_then_ListEngines (d : Daemon) (imageName containerName : String)
    (cmd : List String) (ports : GoMap String) (resources : ContainerResources)
    (hvalid : ValidEngineSpec imageName containerName resources)
    (hstart : (StartEngine d imageName containerName cmd ports resources).1 = none)
    (hlist : (ListEngines (StartEngine d imageName containerName cmd ports resources).2).1.2
      = none) :
    ∃ c ∈ (ListEngines (StartEngine d imageName containerName cmd ports resources).2).1.1,
      runtimeName containerName ∈ c.Names ∧
      c.State = if d.endsAtOnce imageName then .restarting else .running := by
  obtain ⟨c, hc, hname, hstate⟩ := StartEngine_ok_running d imageName containerName cmd ports
    resources hvalid.2.1 hstart
  rw [ListEngines_eq] at hlist ⊢
  cases hf : (StartEngine d imageName containerName cmd ports resources).2.fault with
  | some e => rw [hf] at hlist; simp at hlist
  | none =>
    dsimp only
    refine ⟨c, List.mem_filter.mpr ⟨hc, ?_⟩, hname, hstate⟩
    unfold listed
    rw [hstate]
    cases d.endsAtOnce imageName <;> simp

/-- C2 (amended), at the driver's request on a runtime that holds the image and
whose pull is still streaming, and at the request of the test. -/
theorem StartEngine_then_ListEngines_witness :
    ValidEngineSpec "img:latest" "c1" mainResources ∧
    (∃ c ∈ (ListEngines (StartEngine slowPullDaemon "img:latest" "c1" [] mainPorts
      mainResources).2).1.1, "/c1" ∈ c.Names ∧ c.State = .running) ∧
    (∃ c ∈ (ListEngines (StartEngine helloDaemon "hello-world:latest" "test_engine_container"
      [] ∅ testResources).2).1.1,
      "/test_engine_container" ∈ c.Names ∧ c.State = .restarting) :=
  ⟨by decide,
   StartEngine_then_ListEngines slowPullDaemon "img:latest" "c1" [] mainPorts mainResources
     (by decide) (by decide) (by decide),
   StartEngine_then_ListEngines helloDaemon "hello-world:latest" "test_engine_container" [] ∅
     testResources (by decide) (by decide) (by decide)⟩

/-- C3 as stated fails: after a first successful `StartEngine` on an empty
runtime, the second call with the same request does issue a container-create
request and returns an error (the name conflict), not success. -/
theorem second_StartEngine_conflict :
    (StartEngine emptyDaemon "img:latest" "c1" [] mainPorts mainResources).1 = none ∧
    (StartEngine startedOnce "img:latest" "c1" [] mainPorts mainResources).1
      = some "Conflict. The container name /c1 is already in use" ∧
    (StartEngine startedOnce "img:latest" "c1" [] mainPorts mainResources).2.log
      = startedOnce.log ++ [Call.imagePull "img:latest", Call.containerCreate "c1"] := by
  decide

/-- C3 (amended): calling `StartEngine` twice in succession with the same
non-empty container name and an unchanged request does not create two runtime
containers: when the first call succeeded, the second call returns an error and
leaves the runtime's containers as the first call left them; it issues the pull
request again and, when that pull succeeds, a container-create request (which
the runtime rejects) and nothing after it. -/
theorem StartEngine_twice (d : Daemon) (imageName containerName : String)
    (cmd : List String) (ports : GoMap String) (resources : ContainerResources)
    (hname : containerName ≠ "")
    (hfirst : (StartEngine d imageName containerName cmd ports resources).1 = none) :
    (StartEngine (StartEngine d imageName containerName cmd ports resources).2
      imageName containerName cmd ports resources).1 ≠ none ∧
    (StartEngine (StartEngine d imageName containerName cmd ports resources).2
      imageName containerName cmd ports resources).2.containers
      = (StartEngine d imageName containerName cmd ports resources).2.containers ∧
    ((ImagePull (StartEngine d imageName containerName cmd ports resources).2 imageName).1 = none →
      (StartEngine (StartEngine d imageName containerName cmd ports resources).2
        imageName containerName cmd ports resources).2.log
        = (StartEngine d imageName containerName cmd ports resources).2.log
          ++ [Call.imagePull imageName, Call.containerCreate containerName]) := by
  obtain ⟨c, hc, hcname, -⟩ := StartEngine_ok_running d imageName containerName cmd ports
    resources hname hfirst
  generalize (StartEngine d imageName containerName cmd ports resources).2 = d1 at hc ⊢
  have hcont := ImagePull_containers d1 imageName
  have hlog := ImagePull_log d1 imageName
  unfold StartEngine
  rcases hp : ImagePull d1 imageName with ⟨_ | e, d2⟩
  · rw [hp] at hcont hlog
    dsimp only at hcont hlog ⊢
    have hex : ∃ c ∈ d2.containers, hasName c containerName := ⟨c, by rw [hcont]; exact hc, hcname⟩
    obtain ⟨err, herr⟩ := ContainerCreate_conflict d2 (containerConfig imageName cmd)
      (hostConfig ports resources) containerName hname hex
    have hcc := ContainerCreate_error d2 _ _ _ err herr
    have hcl := ContainerCreate_log d2 (containerConfig imageName cmd)
      (hostConfig ports resources) containerName
    rcases hcr : ContainerCreate d2 (containerConfig imageName cmd)
        (hostConfig ports resources) containerName with ⟨e | id, d3⟩
    · rw [hcr] at hcc hcl
      dsimp only at hcc hcl ⊢
      refine ⟨by simp, by rw [hcc, hcont], fun _ => ?_⟩
      rw [hcl, hlog]; simp
    · rw [hcr] at herr; simp at herr
  · rw [hp] at hcont
    dsimp only at hcont ⊢
    exact ⟨by simp, hcont, fun h => by simp at h⟩

/-- C3 (amended), at the driver's request on an empty runtime. -/
theorem StartEngine_twice_witness :
    ("c1" : String) ≠ "" ∧
    (StartEngine emptyDaemon "img:latest" "c1" [] mainPorts mainResources).1 = none ∧
    (StartEngine (StartEngine emptyDaemon "img:latest" "c1" [] mainPorts mainResources).2
      "img:latest" "c1" [] mainPorts mainResources).1 ≠ none :=
  ⟨by decide, by decide,
   (StartEngine_twice emptyDaemon "img:latest" "c1" [] mainPorts mainResources
     (by decide) (by decide)).1⟩

/-- C4 as stated fails: on a runtime holding no container, so that the name
`ghost` matches none, `StopEngine` returns the runtime's not-found error
instead of success. -/
theorem StopEngine_ghost_not_found :
    resolve emptyDaemon.containers "ghost" = none ∧
    (StopEngine emptyDaemon "ghost").1 = some "No such container: ghost" := by
  decide

/-- C4 (amended): for every container name that matches no container in the
runtime, `StopEngine` issues one stop request, returns the error with which the
runtime answers it (its not-found failure, unless the runtime fails the request
on its own account), and leaves the runtime's containers unchanged. -/
theorem StopEngine_missing (d : Daemon) (containerName : String)
    (hmissing : resolve d.containers containerName = none) :
    (StopEngine d containerName).1
      = some (d.fault.getD ("No such container: " ++ containerName)) ∧
    (StopEngine d containerName).2.containers = d.containers ∧
    (StopEngine d containerName).2.log = d.log ++ [Call.containerStop containerName 10] := by
  rw [StopEngine_eq]
  exact ⟨(ContainerStop_unresolved d containerName 10 hmissing).1,
    (ContainerStop_unresolved d containerName 10 hmissing).2,
    ContainerStop_log d containerName 10⟩

/-- C4 (amended), on the runtime left by one engine start and a name it does not hold. -/
theorem StopEngine_missing_witness :
    resolve startedOnce.containers "ghost" = none ∧
    (StopEngine startedOnce "ghost").1 = some "No such container: ghost" ∧
    (StopEngine startedOnce "ghost").2.containers = startedOnce.containers :=
  ⟨by decide,
   (StopEngine_missing startedOnce "ghost" (by decide)).1,
   (StopEngine_missing startedOnce "ghost" (by decide)).2.1⟩

/-- C5 as stated fails: the runtime fails the start request (its third
request); `StartEngine` returns that error having issued pull, create and start
and no remove request, and the runtime still holds the container named `c1`
that this call created. -/
theorem orphan_after_start_failure :
    (StartEngine (faultyDaemon 2 "cannot start") "img:latest" "c1" [] mainPorts
      mainResources).1 = some "cannot start" ∧
    (StartEngine (faultyDaemon 2 "cannot start") "img:latest" "c1" [] mainPorts
      mainResources).2.log
      = [Call.imagePull "img:latest", Call.containerCreate "c1", Call.containerStart "a"] ∧
    (¬ ∃ c ∈ (faultyDaemon 2 "cannot start").containers, hasName c "c1") ∧
    ∃ c ∈ (StartEngine (faultyDaemon 2 "cannot start") "img:latest" "c1" [] mainPorts
      mainResources).2.containers, hasName c "c1" ∧ c.ID = "a" := by
  decide

/-- C5 (amended): when `StartEngine`'s container-create step succeeds but the
container-start step fails, `StartEngine` returns the start error having issued
exactly the pull, create and start requests (no removal is attempted), and the
just-created container stays in the runtime, in state created, under the
requested name. -/
theorem StartEngine_start_failure (d : Daemon) (imageName containerName : String)
    (cmd : List String) (ports : GoMap String) (resources : ContainerResources)
    (id : String) (err : Error)
    (hpull : (ImagePull d imageName).1 = none)
    (hcreate : (ContainerCreate (ImagePull d imageName).2 (containerConfig imageName cmd)
      (hostConfig ports resources) containerName).1 = .ok id)
    (hstart : (ContainerStart (ContainerCreate (ImagePull d imageName).2
      (containerConfig imageName cmd) (hostConfig ports resources) containerName).2 id).1
      = some err) :
    (StartEngine d imageName containerName cmd ports resources).1 = some err ∧
    (StartEngine d imageName containerName cmd ports resources).2.log
      = d.log ++ [Call.imagePull imageName, Call.containerCreate containerName,
          Call.containerStart id] ∧
    ∃ c ∈ (StartEngine d imageName containerName cmd ports resources).2.containers,
      c.ID = id ∧ c.State = .created ∧ (containerName ≠ "" → hasName c containerName) := by
  obtain ⟨x, hxid, hxst, hxname, hcs⟩ := ContainerCreate_ok_new _ _ _ _ _ hcreate
  have hserr := ContainerStart_error _ _ _ hstart
  have hslog := ContainerStart_log (ContainerCreate (ImagePull d imageName).2
      (containerConfig imageName cmd) (hostConfig ports resources) containerName).2 id
  have hclog := ContainerCreate_log (ImagePull d imageName).2
      (containerConfig imageName cmd) (hostConfig ports resources) containerName
  have hplog := ImagePull_log d imageName
  have hfin : StartEngine d imageName containerName cmd ports resources
      = (some err, (ContainerStart (ContainerCreate (ImagePull d imageName).2
          (containerConfig imageName cmd) (hostConfig ports resources) containerName).2 id).2) := by
    unfold StartEngine
    rcases hp : ImagePull d imageName with ⟨_ | e, d1⟩
    · rw [hp] at hcreate hstart
      dsimp only at hcreate hstart ⊢
      rcases hc : ContainerCreate d1 (containerConfig imageName cmd)
          (hostConfig ports resources) containerName with ⟨e | id', d2⟩
      · rw [hc] at hcreate; simp at hcreate
      · rw [hc] at hcreate hstart
        dsimp only at hcreate hstart ⊢
        have hid : id' = id := by simpa using hcreate
        subst hid
        rcases hs : ContainerStart d2 id' with ⟨_ | e, d3⟩
        · rw [hs] at hstart; simp at hstart
        · rw [hs] at hstart
          have : e = err := by simpa using hstart
          rw [this]
    · rw [hp] at hpull; simp at hpull
  rw [hfin]
  refine ⟨rfl, ?_, x, ?_, hxid, hxst, hxname⟩
  · show (ContainerStart _ id).2.log = _
    rw [hslog, hclog, hplog]; simp
  · show x ∈ (ContainerStart _ id).2.containers
    rw [hserr, hcs]; simp

/-- C5 (amended), on an empty runtime that fails its third request. -/
theorem StartEngine_start_failure_witness :
    (ImagePull (faultyDaemon 2 "cannot start") "img:latest").1 = none ∧
    (StartEngine (faultyDaemon 2 "cannot start") "img:latest" "c1" [] mainPorts
      mainResources).1 = some "cannot start" :=
  ⟨by decide,
   (StartEngine_start_failure (faultyDaemon 2 "cannot start") "img:latest" "c1" [] mainPorts
     mainResources "a" "cannot start" (by decide) (by rfl) (by decide)).1⟩

/-- C6 as stated fails: on a runtime holding no container, `StopEngine` called
twice in succession on `ghost` returns the not-found error on the second call
(as on the first). -/
theorem StopEngine_ghost_twice :
    (StopEngine (StopEngine emptyDaemon "ghost").2 "ghost").1
      = some "No such container: ghost" := by
  decide

/-- C6 (amended): for every container name and every runtime state, if
`StopEngine` is called twice in succession on that name and the first call
returns no error, then the second call returns exactly what the runtime raises
on its own account for that request: no error unless the runtime itself fails
the request; the container being stopped already is not an error. -/
theorem StopEngine_twice (d : Daemon) (containerName : String)
    (hfirst : (StopEngine d containerName).1 = none) :
    (StopEngine (StopEngine d containerName).2 containerName).1
      = (StopEngine d containerName).2.fault := by
  rw [StopEngine_eq] at hfirst
  obtain ⟨-, c, hres, hupd⟩ := ContainerStop_ok d containerName 10 hfirst
  have hsome : (resolve (ContainerStop d containerName 10).2.containers containerName).isSome := by
    rw [hupd, resolve_updateState, hres]; rfl
  obtain ⟨c', hc'⟩ := Option.isSome_iff_exists.mp hsome
  rw [StopEngine_eq, StopEngine_eq]
  exact ContainerStop_resolved _ containerName 10 c' hc'

/-- C6 (amended), stopping twice the engine the driver started. -/
theorem StopEngine_twice_witness :
    (StopEngine startedOnce "c1").1 = none ∧
    (StopEngine (StopEngine startedOnce "c1").2 "c1").1 = none :=
  ⟨by decide, (StopEngine_twice startedOnce "c1" (by decide)).trans (by decide)⟩

/-! ## Port bindings -/

/-- Folding `insert` over distinct keys: a key of the list ends up with its
(converted) value, any other key keeps what the accumulator had. -/
theorem lookup_foldl_insert {V W : Type} (g : V → W) :
    ∀ (l : List (Sigma fun _ : String => V)) (acc : GoMap W) (k : String),
      l.NodupKeys →
      AList.lookup k (l.foldl (fun r a => r.insert a.1 (g a.2)) acc) =
        match l.dlookup k with
        | some v => some (g v)
        | none => AList.lookup k acc
  | [], acc, k, _ => by simp
  | ⟨a, b⟩ :: t, acc, k, h => by
      have ht : t.NodupKeys := (List.nodupKeys_cons.mp h).2
      have ha : a ∉ t.keys := (List.nodupKeys_cons.mp h).1
      rw [List.foldl_cons, lookup_foldl_insert g t _ k ht]
      by_cases hk : k = a
      · subst hk
        have : t.dlookup k = none := List.dlookup_eq_none.mpr ha
        simp [this, List.dlookup_cons_eq]
      · rw [List.dlookup_cons_ne _ _ hk]
        cases hd : t.dlookup k with
        | some v => simp
        | none => simp [AList.lookup_insert_ne hk]

theorem natPortBindings_lookup (ports : GoMap String) (k : String) :
    (natPortBindings ports).lookup k =
      (ports.lookup k).map (fun hostPort => [{ HostIP := "", HostPort := hostPort }]) := by
  unfold natPortBindings AList.foldl
  rw [lookup_foldl_insert (fun hostPort => [({ HostIP := "", HostPort := hostPort } : PortBinding)])
    ports.entries ∅ k ports.nodupKeys]
  unfold AList.lookup
  cases ports.entries.dlookup k <;> simp

theorem natPortBindings_mem (ports : GoMap String) (k : String) :
    k ∈ natPortBindings ports ↔ k ∈ ports := by
  rw [← AList.lookup_isSome, ← AList.lookup_isSome, natPortBindings_lookup]
  cases ports.lookup k <;> simp

/-- C10: for every port map, `natPortBindings` returns a map with exactly the
keys of the input, each key mapped to the one-element list holding the binding
with empty host IP and the input's host port for that key; the result has as
many entries as the input, and the empty map yields the empty map. -/
theorem natPortBindings_spec (ports : GoMap String) :
    (∀ k, k ∈ natPortBindings ports ↔ k ∈ ports) ∧
    (∀ k, (natPortBindings ports).lookup k =
      (ports.lookup k).map (fun hostPort => [{ HostIP := "", HostPort := hostPort }])) ∧
    (natPortBindings ports).entries.length = ports.entries.length ∧
    natPortBindings ∅ = ∅ := by
  refine ⟨natPortBindings_mem ports, natPortBindings_lookup ports, ?_, rfl⟩
  have hperm : (natPortBindings ports).keys.Perm ports.keys :=
    (List.perm_ext_iff_of_nodup (AList.keys_nodup _) (AList.keys_nodup _)).mpr
      (fun k => by
        rw [← AList.mem_keys, ← AList.mem_keys]; exact natPortBindings_mem ports k)
  have := hperm.length_eq
  simpa [AList.keys, List.keys] using this

/-! ## GPU sampling -/

/-- The loop when the next `n` devices all answer: their utilisations, in index
order, are appended. -/
theorem gpuUsageLoop_ok (nv : NVML) (u : Nat → Nat) :
    ∀ (n i : Nat) (acc : List Nat),
      (∀ j, j < n → sampleDevice nv (i + j) = .ok (u (i + j))) →
      gpuUsageLoop nv n i acc = (acc ++ (List.range' i n).map u, none)
  | 0, i, acc, _ => by simp [gpuUsageLoop]
  | n + 1, i, acc, h => by
      have h0 := h 0 (Nat.succ_pos n)
      rw [Nat.add_zero] at h0
      have hrest : ∀ j, j < n → sampleDevice nv (i + 1 + j) = .ok (u (i + 1 + j)) := by
        intro j hj
        have := h (j + 1) (Nat.succ_lt_succ hj)
        rwa [show i + (j + 1) = i + 1 + j by omega] at this
      rw [gpuUsageLoop, h0]
      dsimp only
      rw [gpuUsageLoop_ok nv u n (i + 1) _ hrest]
      simp [List.range'_succ]

/-- The loop when device `i + k` is the first not to answer: `nil` and its error. -/
theorem gpuUsageLoop_error (nv : NVML) (err : Error) :
    ∀ (k n i : Nat) (acc : List Nat), k < n →
      (∀ j, j < k → ∃ v, sampleDevice nv (i + j) = .ok v) →
      sampleDevice nv (i + k) = .error err →
      gpuUsageLoop nv n i acc = ([], some err)
  | _, 0, _, _, hk, _, _ => absurd hk (Nat.not_lt_zero _)
  | 0, n + 1, i, acc, _, _, he => by
      rw [Nat.add_zero] at he
      rw [gpuUsageLoop, he]
  | k + 1, n + 1, i, acc, hk, hok, he => by
      obtain ⟨v, hv⟩ := hok 0 (Nat.succ_pos k)
      rw [Nat.add_zero] at hv
      rw [gpuUsageLoop, hv]
      dsimp only
      refine gpuUsageLoop_error nv err k n (i + 1) _ (Nat.lt_of_succ_lt_succ hk) ?_ ?_
      · intro j hj
        have := hok (j + 1) (Nat.succ_lt_succ hj)
        rwa [show i + (j + 1) = i + 1 + j by omega] at this
      · rwa [show i + (k + 1) = i + 1 + k by omega] at he

/-- C9 as stated fails: when the initialisation of the GPU library fails,
`GetGPUUsage` returns that error (with a `nil` sequence), not "no error". -/
theorem GetGPUUsage_returns_error :
    noGPU.Initialize ≠ none ∧
    GetGPUUsage noGPU = ([], some "could not load NVML library") ∧
    (GetGPUUsage noGPU).2 ≠ none := by
  decide

/-- C9 (amended): `GetGPUUsage` returns an error exactly as the GPU library
does: whenever one of the calls fails (initialisation, device count, or, for the
first device index that does not answer, its handle lookup or utilisation
query) it returns a `nil` sequence together with the error of that call; when
all calls succeed it returns no error and one percentage per device in
device-index order. -/
theorem GetGPUUsage_spec (nv : NVML) :
    (∀ err, nv.Initialize = some err → GetGPUUsage nv = ([], some err)) ∧
    (∀ err, nv.Initialize = none → nv.DeviceCount = .error err →
      GetGPUUsage nv = ([], some err)) ∧
    (∀ n k err, nv.Initialize = none → nv.DeviceCount = .ok n → k < n →
      (∀ j, j < k → ∃ v, sampleDevice nv j = .ok v) → sampleDevice nv k = .error err →
      GetGPUUsage nv = ([], some err)) ∧
    (∀ n (u : Nat → Nat), nv.Initialize = none → nv.DeviceCount = .ok n →
      (∀ j, j < n → sampleDevice nv j = .ok (u j)) →
      GetGPUUsage nv = ((List.range n).map u, none)) := by
  refine ⟨?_, ?_, ?_, ?_⟩
  · intro err h
    simp [GetGPUUsage, h]
  · intro err h hc
    simp [GetGPUUsage, h, hc]
  · intro n k err h hc hk hok he
    simp only [GetGPUUsage, h, hc]
    exact gpuUsageLoop_error nv err k n 0 [] hk (by simpa using hok) (by simpa using he)
  · intro n u h hc hok
    simp only [GetGPUUsage, h, hc]
    rw [gpuUsageLoop_ok nv u n 0 [] (by simpa using hok)]
    simp [List.range_eq_range']

/-- C9 (amended), on a host with two GPUs and on one whose second query fails. -/
theorem GetGPUUsage_spec_witness :
    GetGPUUsage twoGPUs = ([35, 80], none) ∧
    GetGPUUsage secondGPUFails = ([], some "nvml: GPU is lost") :=
  ⟨(GetGPUUsage_spec twoGPUs).2.2.2 2 (fun j => if j = 0 then 35 else 80) rfl rfl
      (fun j hj => by
        have : j = 0 ∨ j = 1 := by omega
        rcases this with h | h <;> subst h <;> rfl),
   (GetGPUUsage_spec secondGPUFails).2.2.1 2 1 "nvml: GPU is lost" rfl rfl (by decide)
      (fun j hj => by
        have : j = 0 := by omega
        subst this; exact ⟨35, rfl⟩)
      rfl⟩

/-! ## Artifact store: paths -/

theorem splitSlash_no_separator :
    ∀ (cs cur : List Char), '/' ∉ cs → splitSlash cs cur = [String.mk (cur.reverse ++ cs)]
  | [], cur, _ => by simp [splitSlash]
  | c :: cs, cur, h => by
      have hc : c ≠ '/' := fun e => h (by simp [e])
      have hcs : '/' ∉ cs := fun e => h (List.mem_cons_of_mem _ e)
      rw [splitSlash, if_neg hc, splitSlash_no_separator cs (c :: cur) hcs]
      simp

/-- For a name that is a single path element, `filepath.Join(dir, name)` is the
entry `name` of the directory `dir`. -/
theorem filepathJoin_plain (dir name : String) (h : PlainName name) :
    filepathJoin dir name = pathOf dir ++ [name] := by
  obtain ⟨h1, h2, h3, h4⟩ := h
  have hel : elements name = [name] := by
    unfold elements
    rw [splitSlash_no_separator _ _ h4]
    simp
  have horigin : origin (if dir = "" then name else dir) = origin dir := by
    by_cases hd : dir = ""
    · have hhead : name.toList.head? ≠ some '/' := by
        intro e
        exact h4 (List.mem_of_mem_head? e)
      have hhead2 : ¬ name.data.head? = some '/' := hhead
      simp [hd, origin, hhead2]
    · rw [if_neg hd]
  unfold filepathJoin pathOf
  rw [hel, List.foldl_append, horigin]
  simp [step, h1, h2, h3]

theorem childName_eq_some (p q : Path) (name : String) :
    childName p q = some name ↔ q = p ++ [name] := by
  unfold childName
  constructor
  · intro h
    split_ifs at h with ht
    split at h
    · rename_i n hd
      have hn : n = name := by simpa using h
      rw [← List.take_append_drop p.length q, ht, hd, hn]
    · simp at h
  · intro h
    subst h
    simp

/-- An entry named by a single path element is neither the working directory
nor the root of the file system. -/
theorem child_not_origin (p : Path) (name : String) (h : PlainName name) :
    ¬ (p ++ [name] = [] ∨ p ++ [name] = ["/"]) := by
  have hname : name ≠ "/" := by
    intro e
    exact h.2.2.2 (by rw [e]; decide)
  rintro (h0 | h1)
  · simp at h0
  · cases p with
    | nil => exact hname (by simpa using h1)
    | cons a t => simp at h1

/-! ## Artifact store: listing -/

/-- Sorting by name and dropping names commute. -/
theorem insertionSort_filter (keep : String → Bool) (l : List String) :
    List.insertionSort nameLE (l.filter keep) = (List.insertionSort nameLE l).filter keep :=
  List.eq_of_perm_of_sorted
    ((List.perm_insertionSort nameLE _).trans
      ((List.perm_insertionSort nameLE l).filter keep).symm)
    (List.sorted_insertionSort nameLE _)
    ((List.sorted_insertionSort nameLE l).filter keep)

/-- The loop of `ListModels` keeps the names of the entries that are not directories. -/
theorem listLoop_eq (files : List DirEntry) (acc : List String) :
    files.foldl (fun models file => if !file.IsDir then models ++ [file.Name] else models) acc
      = acc ++ (files.filter (fun file => !file.IsDir)).map (fun file => file.Name) := by
  induction files generalizing acc with
  | nil => simp
  | cons f fs ih =>
    rw [List.foldl_cons, ih]
    cases hd : f.IsDir <;> simp [hd]

/-- The names `ListModels` returns, in terms of the file system. -/
theorem ListModels_eq (m : ModelManager) (fs : FS) (h : isDir fs (pathOf m.StorageDir)) :
    m.ListModels fs =
      ((List.insertionSort nameLE (fs.keys.filterMap (childName (pathOf m.StorageDir)))).filter
        (fun name => !decide (fs.lookup (pathOf m.StorageDir ++ [name]) = some Node.dir)), none) := by
  unfold ModelManager.ListModels osReadDir
  rw [if_pos h]
  dsimp only
  rw [listLoop_eq]
  simp [List.filter_map, List.map_map, Function.comp_def]

theorem filterMap_erase_key [BEq Path] [LawfulBEq Path] (p : Path) (name : String) :
    ∀ ks : List Path, ks.Nodup →
      (ks.erase (p ++ [name])).filterMap (childName p)
        = (ks.filterMap (childName p)).filter (fun n => decide (n ≠ name))
  | [], _ => by simp
  | q :: qs, hnd => by
      have hq : q ∉ qs := (List.nodup_cons.mp hnd).1
      have hqs : qs.Nodup := (List.nodup_cons.mp hnd).2
      by_cases hk : q = p ++ [name]
      · have hc : childName p q = some name := (childName_eq_some p q name).mpr hk
        have hnone : ∀ n ∈ qs.filterMap (childName p), n ≠ name := by
          intro n hn e
          obtain ⟨q2, hq2, hq2n⟩ := List.mem_filterMap.mp hn
          rw [e] at hq2n
          have := (childName_eq_some p q2 name).mp hq2n
          exact hq (by rw [hk, ← this]; exact hq2)
        rw [← hk, List.erase_cons_head, List.filterMap_cons, hc, List.filter_cons]
        simp only [ne_eq, not_true_eq_false, decide_False, Bool.false_eq_true, if_false]
        symm
        rw [List.filter_eq_self]
        intro n hn
        simpa using hnone n hn
      · have hbeq : ¬ (q == p ++ [name]) = true := by simpa using hk
        rw [List.erase_cons_tail hbeq, List.filterMap_cons, List.filterMap_cons,
          filterMap_erase_key p name qs hqs]
        cases hc : childName p q with
        | none => rfl
        | some n =>
          have hn : n ≠ name := by
            intro e
            rw [e] at hc
            exact hk ((childName_eq_some p q name).mp hc)
          simp [List.filter_cons, hn]

/-- The entries of a directory after one of them is removed. -/
theorem children_erase (fs : FS) (p : Path) (name : String) :
    (fs.erase (p ++ [name])).keys.filterMap (childName p)
      = (fs.keys.filterMap (childName p)).filter (fun n => decide (n ≠ name)) := by
  rw [AList.keys_erase]
  exact @filterMap_erase_key instBEqOfDecidableEq inferInstance p name fs.keys
    (AList.keys_nodup fs)

/-! ## Artifact store: the claims -/

/-- C7 as stated fails: the response has status 200 and its body breaks after
two bytes, `DownloadModel` fails, and the file under the final name holds those
two bytes: on the empty store a file `m.bin` has appeared and is listed; on the
sample store the four bytes `a.bin` held before are gone. -/
theorem DownloadModel_leaves_partial_file :
    (testManager.DownloadModel brokenNet emptyStore "http://host/m.bin" "m.bin").1
      = some "unexpected EOF" ∧
    emptyStore.lookup ["test_models", "m.bin"] = none ∧
    (testManager.DownloadModel brokenNet emptyStore "http://host/m.bin" "m.bin").2.lookup
      ["test_models", "m.bin"] = some (Node.file [77, 79]) ∧
    testManager.ListModels
      (testManager.DownloadModel brokenNet emptyStore "http://host/m.bin" "m.bin").2
      = (["m.bin"], none) ∧
    (testManager.DownloadModel brokenNet sampleStore "http://host/a.bin" "a.bin").1
      = some "unexpected EOF" ∧
    sampleStore.lookup ["test_models", "a.bin"] = some (Node.file [6, 7, 8, 9]) ∧
    (testManager.DownloadModel brokenNet sampleStore "http://host/a.bin" "a.bin").2.lookup
      ["test_models", "a.bin"] = some (Node.file [77, 79]) := by
  decide

/-- C7 (amended): for every source URL, artifact name and store state, if
`DownloadModel` fails because the request fails, because the response status is
not 200, or because the file cannot be created, then the store is unchanged; if
it fails by an I/O failure while copying the response body, it returns that
error, the file under the final name holds exactly the bytes received before
the failure, and every other path of the store is unchanged. -/
theorem DownloadModel_failure (m : ModelManager) (net : Net) (fs : FS) (url modelName : String) :
    (∀ err, net url = .error err → m.DownloadModel net fs url modelName = (some err, fs)) ∧
    (∀ resp, net url = .ok resp → resp.StatusCode ≠ 200 →
      (m.DownloadModel net fs url modelName).1 ≠ none ∧
      (m.DownloadModel net fs url modelName).2 = fs) ∧
    (∀ resp err, net url = .ok resp → resp.StatusCode = 200 →
      (osCreate fs (filepathJoin m.StorageDir modelName)).1 = some err →
      m.DownloadModel net fs url modelName = (some err, fs)) ∧
    (∀ resp err, net url = .ok resp → resp.StatusCode = 200 →
      (osCreate fs (filepathJoin m.StorageDir modelName)).1 = none →
      resp.Body.failure = some err →
      (m.DownloadModel net fs url modelName).1 = some err ∧
      (m.DownloadModel net fs url modelName).2.lookup (filepathJoin m.StorageDir modelName)
        = some (Node.file resp.Body.delivered) ∧
      ∀ q, q ≠ filepathJoin m.StorageDir modelName →
        (m.DownloadModel net fs url modelName).2.lookup q = fs.lookup q) := by
  refine ⟨?_, ?_, ?_, ?_⟩
  · intro err h
    simp [ModelManager.DownloadModel, h]
  · intro resp h hs
    simp [ModelManager.DownloadModel, h, hs]
  · intro resp err h hs hc
    have hfs : (osCreate fs (filepathJoin m.StorageDir modelName)).2 = fs := by
      unfold osCreate at hc ⊢
      split_ifs at hc ⊢ <;> rfl
    simp only [ModelManager.DownloadModel, h, hs]
    rcases hcr : osCreate fs (filepathJoin m.StorageDir modelName) with ⟨_ | e, fs1⟩
    · rw [hcr] at hc; simp at hc
    · rw [hcr] at hc hfs
      simp at hc hfs
      simp [hc, hfs]
  · intro resp err h hs hc hb
    have hfs : (osCreate fs (filepathJoin m.StorageDir modelName)).2
        = fs.insert (filepathJoin m.StorageDir modelName) (Node.file []) := by
      unfold osCreate at hc ⊢
      split_ifs at hc ⊢
      rfl
    simp only [ModelManager.DownloadModel, h, hs]
    rcases hcr : osCreate fs (filepathJoin m.StorageDir modelName) with ⟨_ | e, fs1⟩
    · rw [hcr] at hfs
      simp only at hfs
      subst hfs
      simp only [ne_eq, not_true_eq_false, if_false, ioCopy, hb, fileData,
        AList.lookup_insert, List.nil_append]
      refine ⟨trivial, ?_, ?_⟩
      · trivial
      · intro q hq
        rw [AList.lookup_insert_ne hq, AList.lookup_insert_ne hq]
    · rw [hcr] at hc; simp at hc

/-- C7 (amended), on the sample store: a `404` leaves the store as it was, a
broken body leaves the bytes received under the final name. -/
theorem DownloadModel_failure_witness :
    (testManager.DownloadModel notFoundNet sampleStore "http://host/a.bin" "a.bin").2
      = sampleStore ∧
    (testManager.DownloadModel brokenNet sampleStore "http://host/a.bin" "a.bin").1
      = some "unexpected EOF" :=
  ⟨((DownloadModel_failure testManager notFoundNet sampleStore "http://host/a.bin" "a.bin").2.1
      ⟨404, ⟨[], none⟩⟩ rfl (by decide)).2,
   ((DownloadModel_failure testManager brokenNet sampleStore "http://host/a.bin" "a.bin").2.2.2
      ⟨200, ⟨[77, 79], some "unexpected EOF"⟩⟩ "unexpected EOF" rfl rfl (by decide) rfl).1⟩

theorem osRemove_absent (fs : FS) (p : Path) (hp : ¬ (p = [] ∨ p = ["/"]))
    (h : fs.lookup p = none) :
    osRemove fs p = (some "no such file or directory", fs) := by
  unfold osRemove
  rw [if_neg hp, h]

theorem osRemove_file (fs : FS) (p : Path) (data : List Nat) (hp : ¬ (p = [] ∨ p = ["/"]))
    (h : fs.lookup p = some (Node.file data)) :
    osRemove fs p = (none, fs.erase p) := by
  unfold osRemove
  rw [if_neg hp, h]

/-- C8 as stated fails, for names that are not a single path element.  On the
sample store the directory has no entry named `org/m.bin`, yet `DeleteModel`
succeeds on that name and removes the file `m.bin` inside the subdirectory
`org`, the listing staying as it was.  On the empty store no entry is named by
the empty string, yet `DeleteModel` succeeds on it and removes the storage
directory itself. -/
theorem DeleteModel_name_not_plain :
    (osReadDir sampleStore (pathOf testManager.StorageDir)).1.map (fun file => file.Name)
      = ["a.bin", "b.bin", "org"] ∧
    sampleStore.lookup (pathOf testManager.StorageDir ++ ["org/m.bin"]) = none ∧
    (testManager.DeleteModel sampleStore "org/m.bin").1 = none ∧
    sampleStore.lookup ["test_models", "org", "m.bin"] = some (Node.file [4, 5]) ∧
    (testManager.DeleteModel sampleStore "org/m.bin").2.lookup ["test_models", "org", "m.bin"]
      = none ∧
    testManager.ListModels (testManager.DeleteModel sampleStore "org/m.bin").2
      = testManager.ListModels sampleStore ∧
    (osReadDir emptyStore (pathOf testManager.StorageDir)).1 = [] ∧
    emptyStore.lookup (pathOf testManager.StorageDir ++ [""]) = none ∧
    (testManager.DeleteModel emptyStore "").1 = none ∧
    emptyStore.lookup ["test_models"] = some Node.dir ∧
    (testManager.DeleteModel emptyStore "").2.lookup ["test_models"] = none ∧
    (testManager.ListModels (testManager.DeleteModel emptyStore "").2).2 ≠ none := by
  decide

/-- C8 (amended): for every store state and every artifact name that is a
single path element (not empty, not `.` or `..`, no path separator): if no
entry with that name exists in the store directory, `DeleteModel` returns an
error and leaves the store unchanged; if a regular file with that name exists
in the store directory, `DeleteModel` succeeds and a following `ListModels`
returns, without error, exactly the previous listing with that name removed. -/
theorem DeleteModel_spec (m : ModelManager) (fs : FS) (modelName : String)
    (hplain : PlainName modelName) :
    (fs.lookup (pathOf m.StorageDir ++ [modelName]) = none →
      (m.DeleteModel fs modelName).1 ≠ none ∧ (m.DeleteModel fs modelName).2 = fs) ∧
    (∀ data, isDir fs (pathOf m.StorageDir) →
      fs.lookup (pathOf m.StorageDir ++ [modelName]) = some (Node.file data) →
      (m.DeleteModel fs modelName).1 = none ∧
      m.ListModels (m.DeleteModel fs modelName).2
        = ((m.ListModels fs).1.filter (fun name => decide (name ≠ modelName)), none)) := by
  have hjoin := filepathJoin_plain m.StorageDir modelName hplain
  have hne := child_not_origin (pathOf m.StorageDir) modelName hplain
  constructor
  · intro hnone
    unfold ModelManager.DeleteModel
    dsimp only
    rw [hjoin, osRemove_absent fs _ hne hnone]
    exact ⟨by simp, rfl⟩
  · intro data hdir hfile
    have hdel : m.DeleteModel fs modelName
        = (none, fs.erase (pathOf m.StorageDir ++ [modelName])) := by
      unfold ModelManager.DeleteModel
      dsimp only
      rw [hjoin, osRemove_file fs _ data hne hfile]
    have hdir2 : isDir (fs.erase (pathOf m.StorageDir ++ [modelName])) (pathOf m.StorageDir) := by
      rcases hdir with h | h | h
      · exact Or.inl h
      · exact Or.inr (Or.inl h)
      · refine Or.inr (Or.inr ?_)
        rw [AList.lookup_erase_ne (by simp)]
        exact h
    rw [hdel]
    refine ⟨rfl, ?_⟩
    rw [ListModels_eq m _ hdir2, ListModels_eq m fs hdir, children_erase, insertionSort_filter]
    simp only [List.filter_filter, Prod.mk.injEq, and_true]
    apply List.filter_congr
    intro name _
    by_cases hn : name = modelName
    · simp [hn]
    · have hp : pathOf m.StorageDir ++ [name] ≠ pathOf m.StorageDir ++ [modelName] := by
        simpa using hn
      rw [AList.lookup_erase_ne hp]
      simp [hn]

/-- C8 (amended), on the sample store, for a name it lacks and for `a.bin`. -/
theorem DeleteModel_spec_witness :
    PlainName "a.bin" ∧
    (testManager.DeleteModel sampleStore "zzz.bin").2 = sampleStore ∧
    testManager.ListModels (testManager.DeleteModel sampleStore "a.bin").2
      = (["b.bin"], none) :=
  ⟨by decide,
   ((DeleteModel_spec testManager sampleStore "zzz.bin" (by decide)).1 (by decide)).2,
   ((DeleteModel_spec testManager sampleStore "a.bin" (by decide)).2 [6, 7, 8, 9]
      (by decide) (by decide)).2.trans (by decide)⟩

end MosalamaAgent
